import Mathlib

/-!
Shallow embedding of the SMS control-tower dispatch core: phone-number
normalization and the suppression store (`compliance_service.py`), template
selection and rendering (`template_service.py`), and the dispatch worker,
phone-pool selection, rate limiting and status reconciliation
(`workers/message_tasks.py`).  Strings that the Python code manipulates
character-by-character are modelled as `List Char`; database rows become
plain structures and queries become list traversals in row order.
-/

abbrev Chars := List Char

/-- Python `s.lower()` restricted to the characters the code compares (ASCII). -/
def pyLower (s : Chars) : Chars := s.map Char.toLower

/-- Python `s.strip()`: drop whitespace from both ends. -/
def pyStrip (s : Chars) : Chars :=
  ((s.dropWhile Char.isWhitespace).reverse.dropWhile Char.isWhitespace).reverse

/-- Boolean test that `p` begins the list `s` (used to model string scanning). -/
def isPre : Chars → Chars → Bool
  | [], _ => true
  | _ :: _, [] => false
  | a :: as, b :: bs => a == b && isPre as bs

/-- Python substring containment `p in s`. -/
def containsSub (p : Chars) : Chars → Bool
  | [] => isPre p []
  | c :: cs => isPre p (c :: cs) || containsSub p cs

theorem isPre_iff (p s : Chars) : isPre p s = true ↔ ∃ t, p ++ t = s := by
  induction p generalizing s with
  | nil => simp [isPre]
  | cons a as ih =>
    cases s with
    | nil => simp [isPre]
    | cons b bs =>
      simp only [isPre, Bool.and_eq_true, beq_iff_eq, ih]
      constructor
      · rintro ⟨rfl, t, rfl⟩; exact ⟨t, rfl⟩
      · rintro ⟨t, h⟩
        injection h with h1 h2
        exact ⟨h1, t, h2⟩

theorem containsSub_iff (p s : Chars) :
    containsSub p s = true ↔ ∃ l r, l ++ p ++ r = s := by
  induction s with
  | nil =>
    simp only [containsSub, isPre_iff]
    constructor
    · rintro ⟨t, h⟩; exact ⟨[], t, h⟩
    · rintro ⟨l, r, h⟩
      rcases List.append_eq_nil.mp (List.append_eq_nil.mp h).1 with ⟨rfl, rfl⟩
      exact ⟨r, h⟩
  | cons c cs ih =>
    simp only [containsSub, Bool.or_eq_true, isPre_iff, ih]
    constructor
    · rintro (⟨t, h⟩ | ⟨l, r, h⟩)
      · exact ⟨[], t, h⟩
      · exact ⟨c :: l, r, by simp [← h]⟩
    · rintro ⟨l, r, h⟩
      cases l with
      | nil => exact Or.inl ⟨r, by simpa using h⟩
      | cons x xs =>
        injection h with h1 h2
        exact Or.inr ⟨xs, r, h2⟩

/-- Model of `ComplianceService._normalize_phone_number`: strip non-digits, then
prefix with `+1` (10 digits), `+` (11 digits starting with 1) or `+`
(anything else); empty input maps to empty, digit-free input is returned
unchanged. -/
def normalize_phone_number (s : Chars) : Chars :=
  if s = [] then []
  else if s.filter Char.isDigit = [] then s
  else if (s.filter Char.isDigit).length = 10 then '+' :: '1' :: s.filter Char.isDigit
  else if (s.filter Char.isDigit).length = 11 ∧ (s.filter Char.isDigit).head? = some '1' then
    '+' :: s.filter Char.isDigit
  else if s.head? = some '+' then '+' :: s.filter Char.isDigit
  else '+' :: s.filter Char.isDigit

lemma normalize_cons_plus_one (d : Chars) (hall : ∀ c ∈ d, c.isDigit = true)
    (hlen : d.length = 10) :
    normalize_phone_number ('+' :: '1' :: d) = '+' :: '1' :: d := by
  have h1 : Char.isDigit '+' = false := by decide
  have h2 : Char.isDigit '1' = true := by decide
  have hfilter : ('+' :: '1' :: d).filter Char.isDigit = '1' :: d := by
    simp [List.filter_cons, h1, h2, List.filter_eq_self.mpr hall]
  unfold normalize_phone_number
  rw [if_neg (by simp), if_neg (by simp [hfilter]), hfilter]
  rw [if_neg (by simp [hlen]), if_pos (by simp [hlen])]

lemma normalize_cons_plus (d : Chars) (hall : ∀ c ∈ d, c.isDigit = true)
    (hne : d ≠ []) (h10 : d.length ≠ 10) :
    normalize_phone_number ('+' :: d) = '+' :: d := by
  have h1 : Char.isDigit '+' = false := by decide
  have hfilter : ('+' :: d).filter Char.isDigit = d := by
    simp [List.filter_cons, h1, List.filter_eq_self.mpr hall]
  unfold normalize_phone_number
  rw [if_neg (by simp), if_neg (by simp [hfilter, hne]), hfilter, if_neg h10]
  by_cases h11 : d.length = 11 ∧ d.head? = some '1'
  · rw [if_pos h11]
  · rw [if_neg h11, if_pos (by simp)]

/-- C10: normalization is idempotent — applying `_normalize_phone_number`
twice yields the same result as applying it once, for every input string. -/
theorem normalize_phone_number_idempotent (s : Chars) :
    normalize_phone_number (normalize_phone_number s) = normalize_phone_number s := by
  by_cases hs : s = []
  · subst hs; rfl
  · by_cases hd : s.filter Char.isDigit = []
    · have h1 : normalize_phone_number s = s := by
        unfold normalize_phone_number; rw [if_neg hs, if_pos hd]
      rw [h1, h1]
    · have hall : ∀ c ∈ s.filter Char.isDigit, c.isDigit = true :=
        fun c hc => List.of_mem_filter hc
      by_cases h10 : (s.filter Char.isDigit).length = 10
      · have h1 : normalize_phone_number s = '+' :: '1' :: s.filter Char.isDigit := by
          unfold normalize_phone_number
          rw [if_neg hs, if_neg hd, if_pos h10]
        rw [h1, normalize_cons_plus_one _ hall h10]
      · have h1 : normalize_phone_number s = '+' :: s.filter Char.isDigit := by
          unfold normalize_phone_number
          rw [if_neg hs, if_neg hd, if_neg h10]
          by_cases h11 : (s.filter Char.isDigit).length = 11 ∧
              (s.filter Char.isDigit).head? = some '1'
          · rw [if_pos h11]
          · rw [if_neg h11]
            by_cases hplus : s.head? = some '+'
            · rw [if_pos hplus]
            · rw [if_neg hplus]
        rw [h1, normalize_cons_plus _ hall hd h10]

/-! ## Suppression store (`compliance_service.py`) -/

structure Suppression where
  organization_id : Nat
  phone_number : Chars
  normalized_phone : Chars
  source : String
  reason : String
  campaign_id : Option Nat
  is_active : Bool
deriving DecidableEq

/-- Row predicate of the `get_active_opt_out` / `is_suppressed` query:
the stored raw or normalized number matches the normalized lookup key, or
the raw number matches the raw key, for the organization, active only. -/
def suppressionMatches (r : Suppression) (phone : Chars) (orgId : Nat) : Bool :=
  decide (r.phone_number = normalize_phone_number phone ∨
      r.normalized_phone = normalize_phone_number phone ∨ r.phone_number = phone)
    && decide (r.organization_id = orgId) && r.is_active

/-- Model of `ComplianceService.get_active_opt_out`: first matching active row. -/
def get_active_opt_out (store : List Suppression) (phone : Chars) (orgId : Nat) :
    Option Suppression :=
  store.find? fun r => suppressionMatches r phone orgId

/-- Model of `ComplianceService.is_suppressed`. -/
def is_suppressed (store : List Suppression) (phone : Chars) (orgId : Nat) : Bool :=
  (get_active_opt_out store phone orgId).isSome

/-- Python `reason or "opt_out"`: `None` and the empty string are falsy. -/
def pyReasonOr : Option String → String
  | some r => if r = "" then "opt_out" else r
  | none => "opt_out"

/-- The fresh row built by `add_to_suppression` (model default `is_active=True`;
`normalized_phone or phone_number` falls back to the raw number when the
normalized form is empty). -/
def newSuppression (phone : Chars) (orgId : Nat) (source : String)
    (reason : Option String) (campaignId : Option Nat) : Suppression :=
  { organization_id := orgId
    phone_number := if normalize_phone_number phone = [] then phone
      else normalize_phone_number phone
    normalized_phone := if normalize_phone_number phone = [] then phone
      else normalize_phone_number phone
    source := source
    reason := pyReasonOr reason
    campaign_id := campaignId
    is_active := true }

/-- Model of `ComplianceService.add_to_suppression`: return the existing active row if
one matches, otherwise append exactly one fresh active row. -/
def add_to_suppression (store : List Suppression) (phone : Chars) (orgId : Nat)
    (source : String) (reason : Option String) (campaignId : Option Nat) :
    List Suppression × Suppression :=
  match get_active_opt_out store phone orgId with
  | some existing => (store, existing)
  | none =>
    (store ++ [newSuppression phone orgId source reason campaignId],
      newSuppression phone orgId source reason campaignId)

lemma add_to_suppression_of_some (store : List Suppression) (phone : Chars)
    (orgId : Nat) (source : String) (reason : Option String)
    (campaignId : Option Nat) (e : Suppression)
    (h : get_active_opt_out store phone orgId = some e) :
    add_to_suppression store phone orgId source reason campaignId = (store, e) := by
  unfold add_to_suppression; rw [h]

lemma add_to_suppression_of_none (store : List Suppression) (phone : Chars)
    (orgId : Nat) (source : String) (reason : Option String)
    (campaignId : Option Nat)
    (h : get_active_opt_out store phone orgId = none) :
    add_to_suppression store phone orgId source reason campaignId =
      (store ++ [newSuppression phone orgId source reason campaignId],
        newSuppression phone orgId source reason campaignId) := by
  unfold add_to_suppression; rw [h]

lemma newSuppression_matches (phone : Chars) (orgId : Nat) (source : String)
    (reason : Option String) (campaignId : Option Nat) :
    suppressionMatches (newSuppression phone orgId source reason campaignId)
      phone orgId = true := by
  unfold suppressionMatches newSuppression
  by_cases h : normalize_phone_number phone = [] <;> simp [h]

/-- C7: `add_to_suppression` is idempotent — a second add (with any source,
reason and campaign arguments) returns the store and record produced by the
first add, without creating a duplicate row; and when no active suppression
matches, the first add appends exactly one fresh active record, while when
one matches it returns the store unchanged together with the existing row. -/
theorem add_to_suppression_idempotent (store : List Suppression) (phone : Chars)
    (orgId : Nat) (src src2 : String) (rsn rsn2 : Option String)
    (cid cid2 : Option Nat) :
    add_to_suppression (add_to_suppression store phone orgId src rsn cid).1 phone
        orgId src2 rsn2 cid2 = add_to_suppression store phone orgId src rsn cid ∧
    (get_active_opt_out store phone orgId = none →
      (add_to_suppression store phone orgId src rsn cid).1 =
        store ++ [(add_to_suppression store phone orgId src rsn cid).2] ∧
      (add_to_suppression store phone orgId src rsn cid).2.is_active = true) ∧
    (∀ e, get_active_opt_out store phone orgId = some e →
      add_to_suppression store phone orgId src rsn cid = (store, e)) := by
  refine ⟨?_, ?_, ?_⟩
  · cases hfind : get_active_opt_out store phone orgId with
    | some e =>
      rw [add_to_suppression_of_some store phone orgId src rsn cid e hfind]
      exact add_to_suppression_of_some store phone orgId src2 rsn2 cid2 e hfind
    | none =>
      rw [add_to_suppression_of_none store phone orgId src rsn cid hfind]
      have hfind2 : get_active_opt_out
          (store ++ [newSuppression phone orgId src rsn cid]) phone orgId =
          some (newSuppression phone orgId src rsn cid) := by
        unfold get_active_opt_out at hfind ⊢
        rw [List.find?_append, hfind]
        simp [List.find?, newSuppression_matches]
      exact add_to_suppression_of_some _ phone orgId src2 rsn2 cid2 _ hfind2
  · intro hfind
    rw [add_to_suppression_of_none store phone orgId src rsn cid hfind]
    exact ⟨rfl, rfl⟩
  · intro e hfind
    exact add_to_suppression_of_some store phone orgId src rsn cid e hfind

/-- Witness for C7 at a concrete store: adding `5551234567` to an empty store
appends one active record, and a second add returns it unchanged. -/
theorem add_to_suppression_idempotent_witness :
    get_active_opt_out [] ("5551234567".toList) 1 = none ∧
    (add_to_suppression [] ("5551234567".toList) 1 "keyword" none none).1 =
      [] ++ [(add_to_suppression [] ("5551234567".toList) 1 "keyword" none none).2] ∧
    (add_to_suppression [] ("5551234567".toList) 1 "keyword" none none).2.is_active
      = true ∧
    add_to_suppression
        (add_to_suppression [] ("5551234567".toList) 1 "keyword" none none).1
        ("5551234567".toList) 1 "manual" (some "spam_complaint") none =
      add_to_suppression [] ("5551234567".toList) 1 "keyword" none none := by
  have h := add_to_suppression_idempotent [] ("5551234567".toList) 1 "keyword"
    "manual" none (some "spam_complaint") none none
  exact ⟨rfl, (h.2.1 rfl).1, (h.2.1 rfl).2, h.1⟩

/-! ## STOP keyword classification (`process_stop_keyword`) -/

/-- The STOP keyword list of `process_stop_keyword`. -/
def stop_keywords : List Chars :=
  ["stop".toList, "alto".toList, "quit".toList, "cancel".toList, "end".toList,
    "unsubscribe".toList]

/-- The classification test of `process_stop_keyword`:
`any(keyword in message_content.lower().strip() for keyword in stop_keywords)`. -/
def classifies_stop (body : Chars) : Bool :=
  stop_keywords.any fun kw => containsSub kw (pyStrip (pyLower body))

/-- Model of `ComplianceService.process_stop_keyword`: on a keyword hit, add the sender
to the suppression store (source `keyword`, reason defaulting to `opt_out`)
and report `true`; otherwise leave the store unchanged and report `false`. -/
def process_stop_keyword (store : List Suppression) (phone : Chars) (body : Chars)
    (orgId : Nat) (campaignId : Option Nat) : List Suppression × Bool :=
  if classifies_stop body then
    ((add_to_suppression store phone orgId "keyword" none campaignId).1, true)
  else (store, false)

/-- C2 counterexample: the body `"please stop texting me, this is not helping"`
DOES classify as opt-out in the code (substring match), contradicting the
claimed exact-match behaviour. -/
theorem stop_classification_counterexample :
    classifies_stop ("please stop texting me, this is not helping".toList) = true := by
  decide

/-- C2 amended: STOP classification is case-insensitive substring containment
of one of the keywords in the lowercased, trimmed body; `"stop"`, `"Stop"`
and `"  STOP  "` all classify as opt-out, and so does the longer reply
`"please stop texting me, this is not helping"`; a hit adds the sender to the
suppression store with reason `opt_out`. -/
theorem stop_classification_substring (body : Chars) :
    (classifies_stop body = true ↔
      ∃ kw ∈ stop_keywords, ∃ l r, l ++ kw ++ r = pyStrip (pyLower body)) ∧
    classifies_stop ("stop".toList) = true ∧
    classifies_stop ("Stop".toList) = true ∧
    classifies_stop ("  STOP  ".toList) = true ∧
    classifies_stop ("please stop texting me, this is not helping".toList) = true ∧
    (∀ orgId store phone cid, get_active_opt_out store phone orgId = none →
      classifies_stop body = true →
      (process_stop_keyword store phone body orgId cid).2 = true ∧
      (process_stop_keyword store phone body orgId cid).1 =
        store ++ [newSuppression phone orgId "keyword" none cid] ∧
      (newSuppression phone orgId "keyword" none cid).reason = "opt_out") := by
  refine ⟨?_, by decide, by decide, by decide, by decide, ?_⟩
  · simp only [classifies_stop, List.any_eq_true, containsSub_iff]
  · intro orgId store phone cid hnone hcls
    unfold process_stop_keyword
    rw [if_pos hcls, add_to_suppression_of_none store phone orgId "keyword" none cid hnone]
    exact ⟨rfl, rfl, rfl⟩

/-- Witness for C2 at a concrete store and body. -/
theorem stop_classification_substring_witness :
    get_active_opt_out [] ("5551234567".toList) 7 = none ∧
    (process_stop_keyword [] ("5551234567".toList) ("  STOP  ".toList) 7 none).2
      = true ∧
    (process_stop_keyword [] ("5551234567".toList) ("  STOP  ".toList) 7 none).1 =
      [] ++ [newSuppression ("5551234567".toList) 7 "keyword" none none] ∧
    (newSuppression ("5551234567".toList) 7 "keyword" none none).reason = "opt_out" := by
  have h := (stop_classification_substring ("  STOP  ".toList)).2.2.2.2.2
    7 [] ("5551234567".toList) none rfl (by decide)
  exact ⟨rfl, h.1, h.2.1, h.2.2⟩

/-! ## Python `str.replace` on character lists -/

/-- Python `s.replace(p, r)` for a nonempty pattern: scan left to right and
replace non-overlapping occurrences.  (The code only ever replaces `"{name}"`
patterns, which are nonempty; an empty pattern leaves `s` unchanged here.) -/
def strReplace (s p r : Chars) : Chars :=
  if hp : p = [] then s
  else
    match s with
    | [] => []
    | c :: cs =>
      if isPre p (c :: cs) then r ++ strReplace ((c :: cs).drop p.length) p r
      else c :: strReplace cs p r
termination_by s.length
decreasing_by
  · simp only [List.length_drop, List.length_cons]
    have : 0 < p.length := List.length_pos.mpr hp
    omega
  · simp

lemma strReplace_nil (p r : Chars) : strReplace [] p r = [] := by
  unfold strReplace
  split <;> rfl

lemma strReplace_cons_pos (c : Char) (cs p r : Chars) (hp : p ≠ [])
    (h : isPre p (c :: cs) = true) :
    strReplace (c :: cs) p r = r ++ strReplace ((c :: cs).drop p.length) p r := by
  conv_lhs => rw [strReplace]
  rw [dif_neg hp, if_pos h]

lemma strReplace_cons_neg (c : Char) (cs p r : Chars) (hp : p ≠ [])
    (h : isPre p (c :: cs) = false) :
    strReplace (c :: cs) p r = c :: strReplace cs p r := by
  conv_lhs => rw [strReplace]
  rw [dif_neg hp, if_neg (by simp [h])]

/-- A pattern that starts with `'{'` never fires inside a brace-free chunk,
so replacement distributes over the chunk. -/
lemma strReplace_append_no_open (a s p r : Chars) (ha : '{' ∉ a)
    (hp : p.head? = some '{') :
    strReplace (a ++ s) p r = a ++ strReplace s p r := by
  induction a with
  | nil => simp
  | cons c cs ih =>
    have hc : c ≠ '{' := fun h => ha (h ▸ List.mem_cons_self c cs)
    have hpne : p ≠ [] := by
      intro h; subst h; simp at hp
    have hpre : isPre p (c :: (cs ++ s)) = false := by
      cases p with
      | nil => simp at hp
      | cons x xs =>
        have hx : x = '{' := by simpa using hp
        subst hx
        simp only [isPre, Bool.and_eq_false_iff]
        left
        simp [beq_eq_false_iff_ne]
        exact fun h => hc h.symm
    rw [List.cons_append, strReplace_cons_neg c (cs ++ s) p r hpne hpre,
      ih (fun h => ha (List.mem_cons_of_mem c h)), List.cons_append]

/-- Two distinct brace-free names never confuse the placeholder scanner. -/
lemma not_isPre_placeholder (v : Chars) : ∀ (n w : Chars), '}' ∉ v → '}' ∉ n →
    v ≠ n → isPre (v ++ ['}']) (n ++ '}' :: w) = false := by
  induction v with
  | nil =>
    intro n w _ hn hne
    cases n with
    | nil => exact absurd rfl hne
    | cons b bs =>
      have hb : b ≠ '}' := fun h => hn (h ▸ List.mem_cons_self b bs)
      simp only [List.nil_append, List.cons_append, isPre, Bool.and_eq_false_iff]
      left
      simp [beq_eq_false_iff_ne]
      exact fun h => hb h.symm
  | cons a as ih =>
    intro n w hv hn hne
    cases n with
    | nil =>
      have ha : a ≠ '}' := fun h => hv (h ▸ List.mem_cons_self a as)
      simp only [List.cons_append, List.nil_append, isPre, Bool.and_eq_false_iff]
      left
      simpa [beq_eq_false_iff_ne] using ha
    | cons b bs =>
      simp only [List.cons_append, isPre, Bool.and_eq_false_iff]
      by_cases hab : a = b
      · subst hab
        right
        exact ih bs w (fun h => hv (List.mem_cons_of_mem a h))
          (fun h => hn (List.mem_cons_of_mem a h))
          (fun h => hne (h ▸ rfl))
      · left
        simpa [beq_eq_false_iff_ne] using hab

/-- The `"{name}"` pattern that `render_template` replaces. -/
def placeholder (v : Chars) : Chars := '{' :: (v ++ ['}'])

lemma placeholder_ne_nil (v : Chars) : placeholder v ≠ [] := by simp [placeholder]

lemma strReplace_placeholder_hit (v w r : Chars) :
    strReplace ('{' :: (v ++ '}' :: w)) (placeholder v) r =
      r ++ strReplace w (placeholder v) r := by
  have hshape : '{' :: (v ++ '}' :: w) = placeholder v ++ w := by
    simp [placeholder]
  have hpre : isPre (placeholder v) ('{' :: (v ++ '}' :: w)) = true := by
    rw [hshape, isPre_iff]
    exact ⟨w, rfl⟩
  rw [strReplace_cons_pos _ _ _ _ (placeholder_ne_nil v) hpre]
  congr 1
  have : ('{' :: (v ++ '}' :: w)).drop (placeholder v).length = w := by
    rw [hshape, List.drop_left]
  rw [this]

lemma strReplace_placeholder_skip (n w v r : Chars) (hv : '}' ∉ v)
    (hn1 : '{' ∉ n) (hn2 : '}' ∉ n) (hne : v ≠ n) :
    strReplace ('{' :: (n ++ '}' :: w)) (placeholder v) r =
      '{' :: (n ++ '}' :: strReplace w (placeholder v) r) := by
  have hpre : isPre (placeholder v) ('{' :: (n ++ '}' :: w)) = false := by
    simp only [placeholder, isPre, beq_self_eq_true, Bool.true_and]
    exact not_isPre_placeholder v n w hv hn2 hne
  rw [strReplace_cons_neg _ _ _ _ (placeholder_ne_nil v) hpre]
  have hsplit : n ++ '}' :: w = (n ++ ['}']) ++ w := by simp
  rw [hsplit, strReplace_append_no_open (n ++ ['}']) w _ r ?_ (by simp [placeholder])]
  · simp
  · intro h
    rcases List.mem_append.mp h with h' | h'
    · exact hn1 h'
    · simp at h'

/-! ## Template rendering (`TemplateService.render_template`) -/

structure Lead where
  first_name : Option Chars
  last_name : Option Chars
  county : Option Chars
deriving DecidableEq

/-- Python `x or ''` on a nullable string field: `None` becomes empty. -/
def pyOrEmpty : Option Chars → Chars
  | none => []
  | some s => s

def varFirstName : Chars := "first_name".toList
def varLastName : Chars := "last_name".toList
def varCounty : Chars := "county".toList
def varBrand : Chars := "brand".toList
def brandValue : Chars := "SMS Control Tower".toList

/-- The variable table built by `render_template` (in its Python dict order;
`brand` is the constant `"SMS Control Tower"`). -/
def template_vars (l : Lead) : List (Chars × Chars) :=
  [(varFirstName, pyOrEmpty l.first_name),
    (varLastName, pyOrEmpty l.last_name),
    (varCounty, pyOrEmpty l.county),
    (varBrand, brandValue)]

/-- Model of `TemplateService.render_template`: sequential `content.replace("{var}", value)`
over the variable table; unknown placeholders are simply never touched. -/
def render_template (content : Chars) (l : Lead) : Chars :=
  (template_vars l).foldl (fun c vv => strReplace c (placeholder vv.1) vv.2) content

/-- Abstract view of a template: literal chunks interleaved with placeholders. -/
inductive Tok
  | lit (s : Chars)
  | ph (n : Chars)
deriving DecidableEq

def flattenTok : Tok → Chars
  | .lit s => s
  | .ph n => '{' :: (n ++ ['}'])

def flattenToks : List Tok → Chars
  | [] => []
  | t :: ts => flattenTok t ++ flattenToks ts

/-- One replacement pass at the token level. -/
def substTok (v r : Chars) : Tok → Tok
  | .lit s => .lit s
  | .ph n => if n = v then .lit r else .ph n

/-- Literal chunks of a well-formed template contain no opening brace. -/
def tokLitOk : Tok → Prop
  | .lit s => '{' ∉ s
  | .ph _ => True

/-- Placeholder names of a well-formed template contain no braces. -/
def tokNameOk : Tok → Prop
  | .lit _ => True
  | .ph n => '{' ∉ n ∧ '}' ∉ n

instance : DecidablePred tokLitOk := fun t =>
  match t with
  | .lit s => inferInstanceAs (Decidable ('{' ∉ s))
  | .ph _ => .isTrue trivial

instance : DecidablePred tokNameOk := fun t =>
  match t with
  | .lit _ => .isTrue trivial
  | .ph n => inferInstanceAs (Decidable ('{' ∉ n ∧ '}' ∉ n))

/-- One `str.replace` pass over a flattened well-formed template acts exactly
token by token. -/
lemma strReplace_flattenToks (ts : List Tok) (v r : Chars)
    (hv : '}' ∉ v)
    (hlit : ∀ t ∈ ts, tokLitOk t) (hph : ∀ t ∈ ts, tokNameOk t) :
    strReplace (flattenToks ts) (placeholder v) r =
      flattenToks (ts.map (substTok v r)) := by
  induction ts with
  | nil => simp [flattenToks, strReplace_nil]
  | cons t ts ih =>
    have ihh := ih (fun u hu => hlit u (List.mem_cons_of_mem t hu))
      (fun u hu => hph u (List.mem_cons_of_mem t hu))
    cases t with
    | lit s =>
      have hs : '{' ∉ s := hlit (.lit s) (List.mem_cons_self _ _)
      show strReplace (s ++ flattenToks ts) (placeholder v) r = _
      rw [strReplace_append_no_open s _ _ _ hs (by simp [placeholder]), ihh]
      rfl
    | ph n =>
      obtain ⟨hn1, hn2⟩ := hph (.ph n) (List.mem_cons_self _ _)
      have hshape : flattenToks (Tok.ph n :: ts) = '{' :: (n ++ '}' :: flattenToks ts) := by
        simp [flattenToks, flattenTok]
      by_cases hnv : n = v
      · subst hnv
        rw [hshape, strReplace_placeholder_hit n (flattenToks ts) r, ihh]
        simp [List.map_cons, substTok, flattenToks, flattenTok]
      · rw [hshape, strReplace_placeholder_skip n (flattenToks ts) v r hv hn1 hn2
          (fun h => hnv h.symm), ihh]
        simp [List.map_cons, substTok, hnv, flattenToks, flattenTok]

lemma tokLitOk_substTok (v r : Chars) (hr : '{' ∉ r) (t : Tok) (h : tokLitOk t) :
    tokLitOk (substTok v r t) := by
  cases t with
  | lit s => exact h
  | ph n =>
    simp only [substTok]
    by_cases hnv : n = v
    · rw [if_pos hnv]; exact hr
    · rw [if_neg hnv]; trivial

lemma tokNameOk_substTok (v r : Chars) (t : Tok) (h : tokNameOk t) :
    tokNameOk (substTok v r t) := by
  cases t with
  | lit s => trivial
  | ph n =>
    simp only [substTok]
    by_cases hnv : n = v
    · rw [if_pos hnv]; trivial
    · rw [if_neg hnv]; exact h

/-- Substitution the spec describes, as a function of a single token: known
placeholders take the lead's value, unknown placeholders stay verbatim. -/
def renderSpecTok (l : Lead) : Tok → Chars
  | .lit s => s
  | .ph n =>
    if n = varFirstName then pyOrEmpty l.first_name
    else if n = varLastName then pyOrEmpty l.last_name
    else if n = varCounty then pyOrEmpty l.county
    else if n = varBrand then brandValue
    else '{' :: (n ++ ['}'])

/-- Spec-side rendering of a token list. -/
def renderSpec (ts : List Tok) (l : Lead) : Chars :=
  match ts with
  | [] => []
  | t :: ts => renderSpecTok l t ++ renderSpec ts l

lemma flattenToks_subst_all (ts : List Tok) (l : Lead) :
    flattenToks ((((ts.map (substTok varFirstName (pyOrEmpty l.first_name))).map
        (substTok varLastName (pyOrEmpty l.last_name))).map
        (substTok varCounty (pyOrEmpty l.county))).map
        (substTok varBrand brandValue)) = renderSpec ts l := by
  induction ts with
  | nil => rfl
  | cons t ts ih =>
    simp only [List.map_cons, flattenToks, renderSpec]
    rw [ih]
    congr 1
    cases t with
    | lit s => rfl
    | ph n =>
      by_cases h1 : n = varFirstName
      · simp [substTok, renderSpecTok, h1, flattenTok]
      · by_cases h2 : n = varLastName
        · simp [substTok, renderSpecTok, h1, h2, flattenTok,
            show varLastName ≠ varFirstName from by decide]
        · by_cases h3 : n = varCounty
          · simp [substTok, renderSpecTok, h1, h2, h3, flattenTok,
              show varCounty ≠ varFirstName from by decide,
              show varCounty ≠ varLastName from by decide]
          · by_cases h4 : n = varBrand
            · simp [substTok, renderSpecTok, h1, h2, h3, h4, flattenTok,
                show varBrand ≠ varFirstName from by decide,
                show varBrand ≠ varLastName from by decide,
                show varBrand ≠ varCounty from by decide]
            · simp [substTok, renderSpecTok, h1, h2, h3, h4, flattenTok]

/-- C8: for every template written as literal chunks and placeholders (chunks
and names brace-free) and every lead whose values introduce no braces,
`render_template` substitutes the four known placeholders with the lead's
values and leaves every unknown placeholder verbatim — it never fails. -/
theorem render_template_substitution (ts : List Tok) (l : Lead)
    (hlit : ∀ t ∈ ts, tokLitOk t) (hph : ∀ t ∈ ts, tokNameOk t)
    (hfn : '{' ∉ pyOrEmpty l.first_name) (hln : '{' ∉ pyOrEmpty l.last_name)
    (hco : '{' ∉ pyOrEmpty l.county) :
    render_template (flattenToks ts) l = renderSpec ts l := by
  unfold render_template template_vars
  simp only [List.foldl]
  rw [strReplace_flattenToks ts _ _ (by decide) hlit hph]
  rw [strReplace_flattenToks _ _ _ (by decide)
    (fun t ht => by
      rcases List.mem_map.mp ht with ⟨u, hu, rfl⟩
      exact tokLitOk_substTok _ _ hfn u (hlit u hu))
    (fun t ht => by
      rcases List.mem_map.mp ht with ⟨u, hu, rfl⟩
      exact tokNameOk_substTok _ _ u (hph u hu))]
  rw [strReplace_flattenToks _ _ _ (by decide)
    (fun t ht => by
      rcases List.mem_map.mp ht with ⟨u, hu, rfl⟩
      rcases List.mem_map.mp hu with ⟨w, hw, rfl⟩
      exact tokLitOk_substTok _ _ hln _ (tokLitOk_substTok _ _ hfn w (hlit w hw)))
    (fun t ht => by
      rcases List.mem_map.mp ht with ⟨u, hu, rfl⟩
      rcases List.mem_map.mp hu with ⟨w, hw, rfl⟩
      exact tokNameOk_substTok _ _ _ (tokNameOk_substTok _ _ w (hph w hw)))]
  rw [strReplace_flattenToks _ _ _ (by decide)
    (fun t ht => by
      rcases List.mem_map.mp ht with ⟨u, hu, rfl⟩
      rcases List.mem_map.mp hu with ⟨w, hw, rfl⟩
      rcases List.mem_map.mp hw with ⟨x, hx, rfl⟩
      exact tokLitOk_substTok _ _ hco _ (tokLitOk_substTok _ _ hln _
        (tokLitOk_substTok _ _ hfn x (hlit x hx))))
    (fun t ht => by
      rcases List.mem_map.mp ht with ⟨u, hu, rfl⟩
      rcases List.mem_map.mp hu with ⟨w, hw, rfl⟩
      rcases List.mem_map.mp hw with ⟨x, hx, rfl⟩
      exact tokNameOk_substTok _ _ _ (tokNameOk_substTok _ _ _
        (tokNameOk_substTok _ _ x (hph x hx))))]
  exact flattenToks_subst_all ts l

/-- A concrete template with a known and an unknown placeholder. -/
def sampleToks : List Tok :=
  [Tok.lit ("Hi ".toList), Tok.ph ("first_name".toList),
    Tok.lit (", reply from ".toList), Tok.ph ("brand".toList),
    Tok.lit (" re ".toList), Tok.ph ("zip_code".toList)]

def sampleLead : Lead :=
  { first_name := some ("Ana".toList), last_name := none,
    county := some ("Kent".toList) }

/-- Witness for C8: on `sampleToks`/`sampleLead` the hypotheses hold and the
rendered output substitutes `first_name` and `brand` while keeping
`{zip_code}` verbatim. -/
theorem render_template_substitution_witness :
    (∀ t ∈ sampleToks, tokLitOk t) ∧ (∀ t ∈ sampleToks, tokNameOk t) ∧
    '{' ∉ pyOrEmpty sampleLead.first_name ∧ '{' ∉ pyOrEmpty sampleLead.last_name ∧
    '{' ∉ pyOrEmpty sampleLead.county ∧
    render_template (flattenToks sampleToks) sampleLead = renderSpec sampleToks sampleLead ∧
    renderSpec sampleToks sampleLead = "Hi Ana, reply from SMS Control Tower re {zip_code}".toList := by
  refine ⟨by decide, by decide, by decide, by decide, by decide, ?_, by decide⟩
  exact render_template_substitution sampleToks sampleLead (by decide) (by decide)
    (by decide) (by decide) (by decide)

/-! ## Template selection (`TemplateService.select_template_for_lead`) -/

structure Template where
  id : Nat
  organization_id : Nat
  category : String
  is_active : Bool
  content : Chars
  last_used_at : Option Nat
deriving DecidableEq

/-- Row predicate of the active-template query. -/
def templateMatches (t : Template) (orgId : Nat) (category : String) : Bool :=
  decide (t.organization_id = orgId) && decide (t.category = category) && t.is_active

/-- Model of `TemplateService.select_template_for_lead`: load the active templates of
the organization and category and return `templates[0]` — the first row in
row order, with no rotation and no usage update (`None` when none exist). -/
def select_template_for_lead (templates : List Template) (orgId : Nat)
    (category : String) : Option Template :=
  (templates.filter fun t => templateMatches t orgId category).head?

/-- Ordering on optional `last_used_at` timestamps with `NULL` first. -/
def lruLt : Option Nat → Option Nat → Bool
  | none, none => false
  | none, some _ => true
  | some _, none => false
  | some a, some b => decide (a < b)

/-- Selection policy the spec describes: rotation by least-recently-used
(oldest `last_used_at`, nulls first) among the active templates of the
category. -/
def select_template_lru (templates : List Template) (orgId : Nat)
    (category : String) : Option Template :=
  (templates.filter fun t => templateMatches t orgId category).foldl
    (fun best t =>
      match best with
      | none => some t
      | some b => if lruLt t.last_used_at b.last_used_at then some t else some b)
    none

def tmplRecent : Template :=
  { id := 1, organization_id := 1, category := "initial", is_active := true,
    content := "Hello {first_name}".toList, last_used_at := some 100 }

def tmplFresh : Template :=
  { id := 2, organization_id := 1, category := "initial", is_active := true,
    content := "Hi {first_name}".toList, last_used_at := none }

/-- C9 counterexample: with two active templates the code returns the first
row (`tmplRecent`) and keeps returning it, not the least-recently-used
template (`tmplFresh`): there is no rotation. -/
theorem select_template_no_rotation_counterexample :
    select_template_for_lead [tmplRecent, tmplFresh] 1 "initial" = some tmplRecent ∧
    select_template_lru [tmplRecent, tmplFresh] 1 "initial" = some tmplFresh ∧
    tmplRecent ≠ tmplFresh := by
  refine ⟨rfl, rfl, by decide⟩

/-- C9 amended: `select_template_for_lead` returns the first active template
of the organization and category in row order (no LRU rotation — repeated
selection keeps returning that same template), and returns `none` exactly
when no active template of the category exists. -/
theorem select_template_first_active (templates : List Template) (orgId : Nat)
    (category : String) :
    (select_template_for_lead templates orgId category = none ↔
      ∀ t ∈ templates, templateMatches t orgId category = false) ∧
    (∀ t, select_template_for_lead templates orgId category = some t →
      t ∈ templates ∧ t.organization_id = orgId ∧ t.category = category ∧
        t.is_active = true ∧
        ∃ pre post, templates = pre ++ t :: post ∧
          ∀ u ∈ pre, templateMatches u orgId category = false) := by
  constructor
  · unfold select_template_for_lead
    rw [List.head?_eq_none_iff, List.filter_eq_nil]
    constructor
    · intro h t ht
      exact Bool.not_eq_true _ ▸ Bool.eq_false_iff.mpr (h t ht)
    · intro h t ht
      rw [h t ht]; simp
  · intro t
    induction templates with
    | nil => intro ht; simp [select_template_for_lead] at ht
    | cons u us ih =>
      intro ht
      by_cases hu : templateMatches u orgId category = true
      · have hsel : select_template_for_lead (u :: us) orgId category = some u := by
          simp [select_template_for_lead, List.filter_cons, hu]
        rw [hsel] at ht
        injection ht with ht
        subst ht
        have hm := hu
        simp only [templateMatches, Bool.and_eq_true, decide_eq_true_eq] at hm
        exact ⟨List.mem_cons_self _ _, hm.1.1, hm.1.2, hm.2, [], us, rfl, by simp⟩
      · have hsel : select_template_for_lead (u :: us) orgId category =
            select_template_for_lead us orgId category := by
          simp [select_template_for_lead, List.filter_cons,
            Bool.eq_false_iff.mpr hu]
        rw [hsel] at ht
        obtain ⟨hmem, ho, hc, ha, pre, post, heq, hpre⟩ := ih ht
        refine ⟨List.mem_cons_of_mem _ hmem, ho, hc, ha, u :: pre, post, ?_, ?_⟩
        · rw [List.cons_append, heq]
        · intro w hw
          rcases List.mem_cons.mp hw with rfl | hw'
          · exact Bool.eq_false_iff.mpr hu
          · exact hpre w hw'

/-- Witness for C9's amended claim at a two-template store. -/
theorem select_template_first_active_witness :
    tmplRecent ∈ [tmplRecent, tmplFresh] ∧ tmplRecent.organization_id = 1 ∧
    tmplRecent.category = "initial" ∧ tmplRecent.is_active = true ∧
    ∃ pre post, [tmplRecent, tmplFresh] = pre ++ tmplRecent :: post ∧
      ∀ u ∈ pre, templateMatches u 1 "initial" = false :=
  (select_template_first_active [tmplRecent, tmplFresh] 1 "initial").2 tmplRecent rfl

/-! ## Phone pool selection (`_get_available_phone_number`) -/

structure PhoneNumber where
  id : Nat
  organization_id : Nat
  e164 : Chars
  status : String
  health_score : Nat
  mps : Nat
  daily_limit : Option Nat
  current_daily_count : Nat
  last_used_at : Option Nat
deriving DecidableEq

/-- Row predicate of the pool query: same organization, status `active`, and
`health_score > 50`. -/
def phoneEligible (p : PhoneNumber) (orgId : Nat) : Bool :=
  decide (p.organization_id = orgId) && decide (p.status = "active") &&
    decide (50 < p.health_score)

/-- One step of `ORDER BY last_used_at ASC NULLS FIRST ... LIMIT 1` realised
as a minimum fold that keeps the earlier row on ties. -/
def lruStep (best : Option PhoneNumber) (p : PhoneNumber) : Option PhoneNumber :=
  match best with
  | none => some p
  | some b => if lruLt p.last_used_at b.last_used_at then some p else some b

/-- Model of `_get_available_phone_number`: the first row, in row order, among the
eligible numbers with minimal `last_used_at` (nulls first). -/
def get_available_phone_number (pool : List PhoneNumber) (orgId : Nat) :
    Option PhoneNumber :=
  (pool.filter fun p => phoneEligible p orgId).foldl lruStep none

lemma lruLt_irrefl (a : Option Nat) : lruLt a a = false := by
  cases a <;> simp [lruLt]

lemma lruLt_trans {a b c : Option Nat} (h1 : lruLt a b = true)
    (h2 : lruLt b c = true) : lruLt a c = true := by
  cases a <;> cases b <;> cases c <;> simp_all [lruLt] <;> omega

lemma lruLt_cross {a b c : Option Nat} (h1 : lruLt a c = true)
    (h2 : lruLt a b = false) : lruLt b c = true := by
  cases a <;> cases b <;> cases c <;> simp_all [lruLt] <;> omega

lemma foldl_lruStep_some (l : List PhoneNumber) :
    ∀ acc r, l.foldl lruStep acc = some r →
      (r ∈ l ∨ acc = some r) ∧
      (∀ q ∈ l, lruLt q.last_used_at r.last_used_at = false) ∧
      (∀ b, acc = some b → lruLt b.last_used_at r.last_used_at = false) := by
  induction l with
  | nil =>
    intro acc r h
    simp only [List.foldl_nil] at h
    refine ⟨Or.inr h, by simp, ?_⟩
    intro b hb
    rw [hb] at h
    injection h with h
    rw [h, lruLt_irrefl]
  | cons p ps ih =>
    intro acc r h
    simp only [List.foldl_cons] at h
    obtain ⟨hmem, hps, hacc'⟩ := ih (lruStep acc p) r h
    have hp : lruLt p.last_used_at r.last_used_at = false := by
      cases acc with
      | none => exact hacc' p rfl
      | some b =>
        simp only [lruStep] at hacc'
        by_cases hlt : lruLt p.last_used_at b.last_used_at = true
        · exact hacc' p (by rw [if_pos hlt])
        · have hb := hacc' b (by rw [if_neg hlt])
          by_contra hcon
          have hpr : lruLt p.last_used_at r.last_used_at = true :=
            eq_true_of_ne_false hcon
          have := lruLt_cross hpr (Bool.eq_false_iff.mpr hlt)
          rw [this] at hb
          cases hb
    refine ⟨?_, ?_, ?_⟩
    · rcases hmem with hmem | hstep
      · exact Or.inl (List.mem_cons_of_mem _ hmem)
      · cases acc with
        | none =>
          simp only [lruStep] at hstep
          injection hstep with hstep
          exact Or.inl (hstep ▸ List.mem_cons_self _ _)
        | some b =>
          simp only [lruStep] at hstep
          by_cases hlt : lruLt p.last_used_at b.last_used_at = true
          · rw [if_pos hlt] at hstep
            injection hstep with hstep
            exact Or.inl (hstep ▸ List.mem_cons_self _ _)
          · rw [if_neg hlt] at hstep
            exact Or.inr hstep
    · intro q hq
      rcases List.mem_cons.mp hq with rfl | hq'
      · exact hp
      · exact hps q hq'
    · intro b hb
      subst hb
      simp only [lruStep] at hacc'
      by_cases hlt : lruLt p.last_used_at b.last_used_at = true
      · by_contra hcon
        have hbr := Bool.eq_true_of_ne_false hcon
        have := lruLt_trans hlt hbr
        rw [this] at hp
        cases hp
      · exact hacc' b (by rw [if_neg hlt])

lemma foldl_lruStep_some_of_some (l : List PhoneNumber) :
    ∀ b, ∃ r, l.foldl lruStep (some b) = some r := by
  induction l with
  | nil => intro b; exact ⟨b, rfl⟩
  | cons p ps ih =>
    intro b
    simp only [List.foldl_cons, lruStep]
    by_cases hlt : lruLt p.last_used_at b.last_used_at = true
    · rw [if_pos hlt]; exact ih p
    · rw [if_neg hlt]; exact ih b

def numLowHealth : PhoneNumber :=
  { id := 1, organization_id := 1, e164 := "+15550000001".toList, status := "active",
    health_score := 60, mps := 3, daily_limit := none, current_daily_count := 0,
    last_used_at := none }

/-- C5 counterexample: a number with health score 60 — below the claimed
floor of 70 — is selected by the code; the implemented floor is `> 50`. -/
theorem phone_floor_counterexample :
    get_available_phone_number [numLowHealth] 1 = some numLowHealth ∧
    numLowHealth.health_score < 70 ∧ numLowHealth.status = "active" := by
  refine ⟨rfl, by decide, rfl⟩

/-- C5 amended: `_get_available_phone_number` considers exactly the
organization's numbers with status `active` and health score strictly greater
than 50; among eligible numbers it returns one with minimal `last_used_at`
(nulls first); a number failing the filter is never selected, and `none` is
returned exactly when no number is eligible. -/
theorem get_available_phone_number_spec (pool : List PhoneNumber) (orgId : Nat) :
    (get_available_phone_number pool orgId = none ↔
      ∀ p ∈ pool, phoneEligible p orgId = false) ∧
    (∀ r, get_available_phone_number pool orgId = some r →
      r ∈ pool ∧ r.organization_id = orgId ∧ r.status = "active" ∧
        50 < r.health_score ∧
        ∀ q ∈ pool, phoneEligible q orgId = true →
          lruLt q.last_used_at r.last_used_at = false) := by
  constructor
  · constructor
    · intro h p hp
      by_contra hcon
      have hpe := Bool.eq_true_of_ne_false hcon
      have hmem : p ∈ pool.filter fun x => phoneEligible x orgId :=
        List.mem_filter.mpr ⟨hp, hpe⟩
      unfold get_available_phone_number at h
      cases hfl : pool.filter fun x => phoneEligible x orgId with
      | nil => rw [hfl] at hmem; cases hmem
      | cons x xs =>
        rw [hfl] at h
        simp only [List.foldl_cons, lruStep] at h
        obtain ⟨r, hr⟩ := foldl_lruStep_some_of_some xs x
        rw [hr] at h
        cases h
    · intro h
      unfold get_available_phone_number
      have : pool.filter (fun x => phoneEligible x orgId) = [] := by
        rw [List.filter_eq_nil]
        intro a ha
        rw [h a ha]; simp
      rw [this]; rfl
  · intro r hr
    unfold get_available_phone_number at hr
    obtain ⟨hmem, hmin, _⟩ := foldl_lruStep_some _ none r hr
    rcases hmem with hmem | hnone
    · have hm := List.mem_filter.mp hmem
      have he := hm.2
      simp only [phoneEligible, Bool.and_eq_true, decide_eq_true_eq] at he
      refine ⟨hm.1, he.1.1, he.1.2, he.2, ?_⟩
      intro q hq hqe
      exact hmin q (List.mem_filter.mpr ⟨hq, hqe⟩)
    · cases hnone

def numUsedRecently : PhoneNumber :=
  { id := 2, organization_id := 1, e164 := "+15550000002".toList, status := "active",
    health_score := 95, mps := 3, daily_limit := none, current_daily_count := 0,
    last_used_at := some 500 }

/-- Witness for C5's amended claim: with a recently-used and a never-used
eligible number, the never-used one (nulls first) is selected. -/
theorem get_available_phone_number_spec_witness :
    get_available_phone_number [numUsedRecently, numLowHealth] 1 = some numLowHealth ∧
    numLowHealth ∈ [numUsedRecently, numLowHealth] ∧
    numLowHealth.organization_id = 1 ∧ numLowHealth.status = "active" ∧
    50 < numLowHealth.health_score ∧
    ∀ q ∈ [numUsedRecently, numLowHealth], phoneEligible q 1 = true →
      lruLt q.last_used_at numLowHealth.last_used_at = false := by
  have h := (get_available_phone_number_spec [numUsedRecently, numLowHealth] 1).2
    numLowHealth rfl
  exact ⟨rfl, h.1, h.2.1, h.2.2.1, h.2.2.2.1, h.2.2.2.2⟩

/-! ## Rate limiting (`_can_send_now`, `_calculate_rate_limit_delay`) -/

structure MessageRow where
  from_number : Chars
  created_at : Nat
  status : String
deriving DecidableEq

/-- Row predicate of the recent-sends query: same sender, created within the
trailing 1-second window, status `queued` or `sent`. -/
def recentSend (now : Nat) (p : PhoneNumber) (m : MessageRow) : Bool :=
  decide (m.from_number = p.e164) && decide (now - 1 ≤ m.created_at) &&
    (decide (m.status = "queued") || decide (m.status = "sent"))

/-- Model of `_can_send_now`: strictly fewer recent sends than the number's
messages-per-second limit; no other condition is consulted. -/
def can_send_now (messages : List MessageRow) (now : Nat) (p : PhoneNumber) : Bool :=
  decide ((messages.filter (recentSend now p)).length < p.mps)

/-- Model of `_calculate_rate_limit_delay`: `60 // mps` seconds (integer division). -/
def calculate_rate_limit_delay (p : PhoneNumber) : Nat := 60 / p.mps

/-- Model of the `PhoneNumber.can_send_message` property: the daily-cap check that
`_can_send_now` never calls. -/
def can_send_message (p : PhoneNumber) : Bool :=
  match p.daily_limit with
  | none => true
  | some d => decide (p.current_daily_count < d)

/-! ## Dispatch worker (`_send_campaign_message_async`) -/

structure CampaignTarget where
  id : Nat
  organization_id : Nat
  phone_number : Chars
  status : String
  error_message : Option String
deriving DecidableEq

inductive TwilioOutcome
  | success (sid : Chars) (numSegments : Nat)
  | smsError (err : String)
deriving DecidableEq

/-- Database context of one dispatch run (the target row with its campaign's
organization id inlined, the suppression store, the phone pool, the recent
outbound messages, the selected template) plus the carrier call outcome and
the celery task state: `retries` is `task.request.retries`, `maxRetries` is
`task.max_retries` (3 from the decorator), and `retryExcStr` is the
framework-provided `str(e)` of a swallowed `celery.exceptions.Retry`. -/
structure SendEnv where
  target? : Option CampaignTarget
  store : List Suppression
  pool : List PhoneNumber
  messages : List MessageRow
  template? : Option Template
  now : Nat
  twilio : TwilioOutcome
  retries : Nat
  maxRetries : Nat
  retryExcStr : String
deriving DecidableEq

inductive SendOutcome
  | errorNotFound
  | skipped (reason : String)
  | optedOut
  | failedNoNumber
  | failedNoTemplate
  | sent (sid : Chars) (segments : Nat)
  | sendFailed (err : String)
  | retryRaised (countdownSeconds : Nat)
  | errorRetriesExhausted (err : String)
deriving DecidableEq

/-- Model of `_is_sending_allowed_now`: the quiet-hours stub always allows sending. -/
def is_sending_allowed_now (_t : CampaignTarget) : Bool := true

inductive RetryDecision
  | retryWith (countdownSeconds : Nat)
  | exhausted
deriving DecidableEq

/-- The retry policy of the generic exception handler at the end of
`_send_campaign_message_async`: retry with backoff `60 * 2 ^ retries` seconds
while `retries < max_retries`, then give up. -/
def unexpected_error_retry (retries maxRetries : Nat) : RetryDecision :=
  if retries < maxRetries then .retryWith (60 * 2 ^ retries) else .exhausted

/-- The run's result when an exception reaches the generic `except Exception`
handler — including the `celery.exceptions.Retry` raised by `task.retry`,
which is an `Exception` subclass and so is swallowed here: the target is
marked `failed` with the exception's string form, then the task is re-retried
with `60 * 2 ^ retries` backoff while retries remain, else the run gives up. -/
def generic_exception_result (env : SendEnv) (target : CampaignTarget)
    (excStr : String) : SendOutcome × Option CampaignTarget :=
  ((match unexpected_error_retry env.retries env.maxRetries with
    | .retryWith c => .retryRaised c
    | .exhausted => .errorRetriesExhausted excStr),
    some { target with
      status := "failed"
      error_message := some excStr })

/-- One run of `_send_campaign_message_async`: the sequence of gate checks,
phone selection, rate-limit check, template selection and the carrier call,
returning the outcome together with the target row as the run leaves it.
On a carrier-reported `SMSServiceError` the target is marked `failed`
immediately by the inner handler.  The quiet-hours and rate-limit branches
call `task.retry`, which raises `celery.exceptions.Retry`; that exception is
swallowed by the function's own generic handler, so both branches collapse to
`generic_exception_result` (the computed `60 // mps` countdown is discarded
with the swallowed Retry). -/
def send_campaign_message (env : SendEnv) : SendOutcome × Option CampaignTarget :=
  match env.target? with
  | none => (.errorNotFound, none)
  | some target =>
    if target.status ≠ "queued" then (.skipped target.status, some target)
    else if is_suppressed env.store target.phone_number target.organization_id then
      (.optedOut,
        some { target with
          status := "suppressed"
          error_message := some "Phone number is opted out" })
    else if is_sending_allowed_now target = false then
      generic_exception_result env target env.retryExcStr
    else
      match get_available_phone_number env.pool target.organization_id with
      | none =>
        (.failedNoNumber,
          some { target with
            status := "failed"
            error_message := some "No available phone numbers" })
      | some fromNumber =>
        if can_send_now env.messages env.now fromNumber = false then
          generic_exception_result env target env.retryExcStr
        else
          match env.template? with
          | none =>
            (.failedNoTemplate,
              some { target with
                status := "failed"
                error_message := some "No available templates" })
          | some _tmpl =>
            match env.twilio with
            | .success sid segs =>
              (.sent sid segs, some { target with status := "sent" })
            | .smsError e =>
              (.sendFailed e,
                some { target with
                  status := "failed"
                  error_message := some e })

def ctQueued : CampaignTarget :=
  { id := 10, organization_id := 1, phone_number := "+15551230000".toList,
    status := "queued", error_message := none }

def envNoNumber : SendEnv :=
  { target? := some ctQueued, store := [], pool := [], messages := [],
    template? := none, now := 1000, twilio := .smsError "unused",
    retries := 0, maxRetries := 3, retryExcStr := "Retry in 20s" }

/-- C3 counterexample: when no eligible sending number exists, the run marks
the target terminally `failed` at once — it is not rescheduled with backoff. -/
theorem no_number_counterexample :
    (send_campaign_message envNoNumber).1 = .failedNoNumber ∧
    ((send_campaign_message envNoNumber).2.map CampaignTarget.status) =
      some "failed" := by
  exact ⟨rfl, rfl⟩

/-- C3 amended: whenever the queued, unsuppressed target finds no eligible
phone number, the run immediately sets the target to terminal `failed` with
error `"No available phone numbers"` — there is no reschedule and no backoff
for this case. -/
theorem no_number_marks_failed (env : SendEnv) (target : CampaignTarget)
    (h1 : env.target? = some target) (h2 : target.status = "queued")
    (h3 : is_suppressed env.store target.phone_number target.organization_id = false)
    (h4 : get_available_phone_number env.pool target.organization_id = none) :
    send_campaign_message env =
      (.failedNoNumber, some { target with
        status := "failed"
        error_message := some "No available phone numbers" }) := by
  unfold send_campaign_message
  rw [h1]
  simp [h2, h3, h4, is_sending_allowed_now]

/-- Witness for C3's amended claim at the concrete environment. -/
theorem no_number_marks_failed_witness :
    envNoNumber.target? = some ctQueued ∧ ctQueued.status = "queued" ∧
    is_suppressed envNoNumber.store ctQueued.phone_number
      ctQueued.organization_id = false ∧
    get_available_phone_number envNoNumber.pool ctQueued.organization_id = none ∧
    send_campaign_message envNoNumber =
      (.failedNoNumber, some { ctQueued with
        status := "failed"
        error_message := some "No available phone numbers" }) :=
  ⟨rfl, rfl, rfl, rfl, no_number_marks_failed envNoNumber ctQueued rfl rfl rfl rfl⟩

def numHealthy : PhoneNumber :=
  { id := 3, organization_id := 1, e164 := "+15550000003".toList,
    status := "active", health_score := 95, mps := 3, daily_limit := none,
    current_daily_count := 0, last_used_at := none }

def envCarrierFail : SendEnv :=
  { target? := some ctQueued, store := [], pool := [numHealthy], messages := [],
    template? := some tmplFresh, now := 1000, twilio := .smsError "Carrier timeout",
    retries := 0, maxRetries := 3, retryExcStr := "Retry in 20s" }

/-- C4 counterexample: on the first carrier-reported synchronous failure
(retry count 0, far below `max_retries = 3`) the target is terminally
`failed` at once — no retry, no backoff. -/
theorem carrier_failure_counterexample :
    (send_campaign_message envCarrierFail).1 = .sendFailed "Carrier timeout" ∧
    ((send_campaign_message envCarrierFail).2.map CampaignTarget.status) =
      some "failed" := by
  exact ⟨rfl, rfl⟩

/-- C4 amended: a carrier-reported synchronous failure (`SMSServiceError`)
immediately marks the message and target terminally `failed` with the error
persisted, with no retry; only exceptions outside that handler are retried,
with backoff `60 * 2 ^ retries` seconds while `retries < max_retries` and
exhaustion afterwards. -/
theorem carrier_failure_terminal (env : SendEnv) (target : CampaignTarget)
    (fromNumber : PhoneNumber) (tmpl : Template) (e : String)
    (h1 : env.target? = some target) (h2 : target.status = "queued")
    (h3 : is_suppressed env.store target.phone_number target.organization_id = false)
    (h4 : get_available_phone_number env.pool target.organization_id = some fromNumber)
    (h5 : can_send_now env.messages env.now fromNumber = true)
    (h6 : env.template? = some tmpl)
    (h7 : env.twilio = .smsError e) :
    send_campaign_message env =
      (.sendFailed e, some { target with
        status := "failed"
        error_message := some e }) ∧
    (∀ retries maxRetries, retries < maxRetries →
      unexpected_error_retry retries maxRetries = .retryWith (60 * 2 ^ retries)) ∧
    (∀ retries maxRetries, ¬ retries < maxRetries →
      unexpected_error_retry retries maxRetries = .exhausted) := by
  refine ⟨?_, ?_, ?_⟩
  · unfold send_campaign_message
    rw [h1]
    simp [h2, h3, h4, h5, h6, h7, is_sending_allowed_now]
  · intro retries maxRetries hlt
    unfold unexpected_error_retry
    rw [if_pos hlt]
  · intro retries maxRetries hge
    unfold unexpected_error_retry
    rw [if_neg hge]

/-- Witness for C4's amended claim at the concrete environment. -/
theorem carrier_failure_terminal_witness :
    send_campaign_message envCarrierFail =
      (.sendFailed "Carrier timeout", some { ctQueued with
        status := "failed"
        error_message := some "Carrier timeout" }) ∧
    unexpected_error_retry 0 3 = .retryWith 60 ∧
    unexpected_error_retry 3 3 = .exhausted := by
  have h := carrier_failure_terminal envCarrierFail ctQueued numHealthy tmplFresh
    "Carrier timeout" rfl rfl rfl rfl rfl rfl rfl
  exact ⟨h.1, h.2.1 0 3 (by decide), h.2.2 3 3 (by decide)⟩

def numAtDailyCap : PhoneNumber :=
  { id := 4, organization_id := 1, e164 := "+15550000004".toList,
    status := "active", health_score := 100, mps := 3, daily_limit := some 200,
    current_daily_count := 200, last_used_at := none }

/-- C6 counterexample: a number that has reached its daily cap but sent
nothing in the current second still passes `_can_send_now` — the daily cap is
never checked, so `CanSendNow` is not "under the per-second rate AND under
the daily cap". -/
theorem can_send_now_counterexample :
    can_send_now [] 1000 numAtDailyCap = true ∧
    can_send_message numAtDailyCap = false := by
  exact ⟨rfl, rfl⟩

def numBusy : PhoneNumber :=
  { id := 5, organization_id := 1, e164 := "+15550000005".toList,
    status := "active", health_score := 95, mps := 1, daily_limit := none,
    current_daily_count := 0, last_used_at := none }

def rowBusy : MessageRow :=
  { from_number := "+15550000005".toList, created_at := 1000, status := "sent" }

def envRateLimited : SendEnv :=
  { target? := some ctQueued, store := [], pool := [numBusy],
    messages := [rowBusy], template? := some tmplFresh, now := 1000,
    twilio := .smsError "unused",
    retries := 1, maxRetries := 3, retryExcStr := "Retry in 60s" }

/-- C6 amended: `_can_send_now` is true iff strictly fewer than `mps` messages
from the number (status `queued` or `sent`) were created in the trailing
1-second window — the daily cap is not consulted.  When it is false, the
worker computes a `60 / mps` delay (integer division) for `task.retry`, but
the raised `celery.exceptions.Retry` is swallowed by the function's own
generic exception handler, which marks the target `failed` and re-retries
with countdown `60 * 2 ^ retries` while `retries < max_retries` (consuming
the retry budget), and gives up once retries are exhausted. -/
theorem rate_limit_swallowed_retry (env : SendEnv) (target : CampaignTarget)
    (fromNumber : PhoneNumber)
    (h1 : env.target? = some target) (h2 : target.status = "queued")
    (h3 : is_suppressed env.store target.phone_number target.organization_id = false)
    (h4 : get_available_phone_number env.pool target.organization_id = some fromNumber)
    (h5 : can_send_now env.messages env.now fromNumber = false) :
    (∀ msgs now p, can_send_now msgs now p = true ↔
      msgs.countP (recentSend now p) < p.mps) ∧
    calculate_rate_limit_delay fromNumber = 60 / fromNumber.mps ∧
    (env.retries < env.maxRetries →
      send_campaign_message env =
        (.retryRaised (60 * 2 ^ env.retries), some { target with
          status := "failed"
          error_message := some env.retryExcStr })) ∧
    (¬ env.retries < env.maxRetries →
      send_campaign_message env =
        (.errorRetriesExhausted env.retryExcStr, some { target with
          status := "failed"
          error_message := some env.retryExcStr })) := by
  refine ⟨?_, rfl, ?_, ?_⟩
  · intro msgs now p
    unfold can_send_now
    rw [List.countP_eq_length_filter]
    exact decide_eq_true_iff
  · intro hlt
    unfold send_campaign_message
    rw [h1]
    simp [h2, h3, h4, h5, is_sending_allowed_now, generic_exception_result,
      unexpected_error_retry, hlt]
  · intro hge
    unfold send_campaign_message
    rw [h1]
    simp [h2, h3, h4, h5, is_sending_allowed_now, generic_exception_result,
      unexpected_error_retry, hge]

/-- Witness for C6's amended claim: one send in the current second against an
`mps = 1` number makes `_can_send_now` false; the run (at celery retry count
1) marks the target `failed` and re-retries after `60 * 2 ^ 1 = 120` seconds,
not after the computed `60 / mps = 60` seconds. -/
theorem rate_limit_swallowed_retry_witness :
    can_send_now envRateLimited.messages envRateLimited.now numBusy = false ∧
    calculate_rate_limit_delay numBusy = 60 / numBusy.mps ∧
    envRateLimited.retries < envRateLimited.maxRetries ∧
    send_campaign_message envRateLimited =
      (.retryRaised (60 * 2 ^ envRateLimited.retries), some { ctQueued with
        status := "failed"
        error_message := some envRateLimited.retryExcStr }) ∧
    (can_send_now [] 1000 numBusy = true ↔
      List.countP (recentSend 1000 numBusy) [] < numBusy.mps) := by
  have h := rate_limit_swallowed_retry envRateLimited ctQueued numBusy
    rfl rfl rfl rfl rfl
  exact ⟨rfl, h.2.1, by decide, h.2.2.1 (by decide), h.1 [] 1000 numBusy⟩

/-! ## Status reconciliation (`_update_message_status_async`) -/

structure Message where
  id : Nat
  provider_sid : Option Chars
  status : String
  error_code : Option String
  error_message : Option String
  campaign_target_id : Option Nat
deriving DecidableEq

/-- Python truthiness of the optional `error_code` string. -/
def pyTruthy : Option String → Bool
  | none => false
  | some s => decide (s ≠ "")

/-- The message row as the handler leaves it: status overwritten with the
callback status unconditionally, error fields copied when `error_code` is
truthy. -/
def updatedMessage (message : Message) (status : String)
    (errorCode errorMessage : Option String) : Message :=
  { message with
    status := status
    error_code := if pyTruthy errorCode then errorCode else message.error_code
    error_message := if pyTruthy errorCode then errorMessage
      else message.error_message }

/-- The campaign-target row as the handler leaves it: looked up through the
message's `campaign_target_id` and updated only when its status is `sent`
and the new status is `delivered`, `undelivered` or `failed`. -/
def updatedTarget (tgts : List CampaignTarget) (cid : Option Nat)
    (status : String) : Option CampaignTarget :=
  match cid with
  | none => none
  | some tid =>
    match tgts.find? fun t => decide (t.id = tid) with
    | none => none
    | some target =>
      if target.status = "sent" ∧
          (status = "delivered" ∨ status = "undelivered" ∨ status = "failed") then
        some { target with status := status }
      else some target

/-- Model of `_update_message_status_async`: look up the message by carrier SID
(`none` result when absent), then update the message unconditionally and the
owning campaign target under its guard. -/
def update_message_status (msgs : List Message) (tgts : List CampaignTarget)
    (sid : Chars) (status : String) (errorCode errorMessage : Option String) :
    Option (Message × Option CampaignTarget) :=
  match msgs.find? fun m => decide (m.provider_sid = some sid) with
  | none => none
  | some message =>
    some (updatedMessage message status errorCode errorMessage,
      updatedTarget tgts message.campaign_target_id status)

def msgDelivered : Message :=
  { id := 1, provider_sid := some ("SM123".toList), status := "delivered",
    error_code := none, error_message := none, campaign_target_id := none }

/-- C1 counterexample: a message whose status is `delivered` receiving a
late `sent` callback is overwritten to `sent` — the status regresses, there
is no forward-progress guard on the Message. -/
theorem status_regression_counterexample :
    msgDelivered.status = "delivered" ∧
    ((update_message_status [msgDelivered] [] ("SM123".toList) "sent" none none).map
      fun r => r.1.status) = some "sent" := by
  exact ⟨rfl, rfl⟩

/-- C1 amended: the handler sets the Message's status to the callback status
unconditionally (out-of-order callbacks regress it); only the owning
CampaignTarget is guarded — its status changes exactly when it is currently
`sent` and the new status is `delivered`, `undelivered` or `failed`. -/
theorem update_message_status_unconditional (msgs : List Message)
    (tgts : List CampaignTarget) (sid : Chars) (status : String)
    (ec em : Option String) (m : Message)
    (h : msgs.find? (fun x => decide (x.provider_sid = some sid)) = some m) :
    ∃ r, update_message_status msgs tgts sid status ec em = some r ∧
      r.1.status = status ∧
      (m.campaign_target_id = none → r.2 = none) ∧
      (∀ tid t, m.campaign_target_id = some tid →
        tgts.find? (fun x => decide (x.id = tid)) = some t →
        r.2 = some (if t.status = "sent" ∧
            (status = "delivered" ∨ status = "undelivered" ∨ status = "failed")
          then { t with status := status } else t)) := by
  refine ⟨(updatedMessage m status ec em, updatedTarget tgts m.campaign_target_id status),
    ?_, rfl, ?_, ?_⟩
  · unfold update_message_status
    rw [h]
  · intro hnone
    rw [hnone]
    rfl
  · intro tid t htid hfind
    simp only [updatedTarget, htid, hfind]
    by_cases hg : t.status = "sent" ∧
        (status = "delivered" ∨ status = "undelivered" ∨ status = "failed")
    · rw [if_pos hg, if_pos hg]
    · rw [if_neg hg, if_neg hg]

def msgSentWithTarget : Message :=
  { id := 2, provider_sid := some ("SM456".toList), status := "sent",
    error_code := none, error_message := none, campaign_target_id := some 5 }

def ctSent : CampaignTarget :=
  { id := 5, organization_id := 1, phone_number := "+15551230002".toList,
    status := "sent", error_message := none }

/-- Witness for C1's amended claim: a `delivered` callback on a `sent`
message updates the message and propagates to the `sent` target. -/
theorem update_message_status_unconditional_witness :
    ∃ r, update_message_status [msgSentWithTarget] [ctSent] ("SM456".toList)
        "delivered" none none = some r ∧
      r.1.status = "delivered" ∧
      (msgSentWithTarget.campaign_target_id = none → r.2 = none) ∧
      (∀ tid t, msgSentWithTarget.campaign_target_id = some tid →
        List.find? (fun x => decide (x.id = tid)) [ctSent] = some t →
        r.2 = some (if t.status = "sent" ∧
            ("delivered" = "delivered" ∨ "delivered" = "undelivered" ∨
              "delivered" = "failed")
          then { t with status := "delivered" } else t)) :=
  update_message_status_unconditional [msgSentWithTarget] [ctSent]
    ("SM456".toList) "delivered" none none msgSentWithTarget rfl
